import Mathlib

/-!
Shallow embedding of the deepsparse task registry, pipeline lifecycle,
config model and server route binder
(`src/deepsparse/pipeline.py`, `src/deepsparse/server/main.py`).

Implementations (Python classes) are identified by an opaque id (`Impl`),
since the registry compares them with `is` (object identity).  The global
dict `_REGISTERED_PIPELINES` is modelled as an explicit association list
threaded through the operations.
-/

namespace DeepSparse

/-- Engine name constant `DEEPSPARSE_ENGINE = "deepsparse"` (pipeline.py line 43). -/
def DEEPSPARSE_ENGINE : String := "deepsparse"

/-- Engine name constant `ORT_ENGINE = "onnxruntime"` (pipeline.py line 44). -/
def ORT_ENGINE : String := "onnxruntime"

/-- `SUPPORTED_PIPELINE_ENGINES = [DEEPSPARSE_ENGINE, ORT_ENGINE]` (pipeline.py line 46). -/
def SUPPORTED_PIPELINE_ENGINES : List String := [DEEPSPARSE_ENGINE, ORT_ENGINE]

/-- Opaque identity of a pipeline implementation class (Python compares with `is`). -/
abbrev Impl := Nat

/-- The error taxonomy raised by the embedded code.  Python raises
`RuntimeError`/`ValueError`/pydantic errors; the spec names them
`RegistrationConflict`, `UnknownTask`, `InputValidationError`,
`OutputValidationError`, `UnsupportedEngine`, `PathCollision`,
`ConfigParseError` (missing path vs malformed content). -/
inductive PErr where
  | registrationConflict (taskName : String)
  | unknownTask (task : String) (registered : List String)
  | inputValidation
  | outputValidation
  | unsupportedEngine (engineType : String)
  | pathCollision (task : String)
  | configMissingPath (path : String)
  | configMalformed
deriving DecidableEq, Repr

/-- Association-list lookup modelling Python `dict` indexing / `in`. -/
def alistLookup {β : Type} : List (String × β) → String → Option β
  | [], _ => none
  | (k, v) :: rest, key => if k = key then some v else alistLookup rest key

/-- Association-list assignment modelling Python `d[key] = value`: replaces the
binding if the key is present, otherwise appends it (dicts preserve insertion
order). -/
def alistSet {β : Type} : List (String × β) → String → β → List (String × β)
  | [], key, v => [(key, v)]
  | (k, w) :: rest, key, v =>
    if k = key then (k, v) :: rest else (k, w) :: alistSet rest key v

/-- The process-wide `_REGISTERED_PIPELINES` dict: task name → implementation. -/
abbrev Registry := List (String × Impl)

/-- `_register_task(task_name, pipeline_class)` (pipeline.py lines 242-251):
raises `RuntimeError` if the name is bound to a *different* class, otherwise
performs `_REGISTERED_PIPELINES[task_name] = pipeline_class`.  Note: the name
is stored verbatim — no canonicalization happens here. -/
def registerTask (reg : Registry) (taskName : String) (impl : Impl) :
    Except PErr Registry :=
  match alistLookup reg taskName with
  | some existing =>
    if existing = impl then .ok (alistSet reg taskName impl)
    else .error (.registrationConflict taskName)
  | none => .ok (alistSet reg taskName impl)

/-- The loop body of `Pipeline.register`'s decorator (pipeline.py lines 259-260):
`for task_name in task_names: _register_task(task_name, pipeline_class)`.
The global dict keeps the mutations made before an exception propagates, so the
result carries the registry state reached at the point of failure. -/
def registerNames (reg : Registry) (names : List String) (impl : Impl) :
    Registry × Option PErr :=
  match names with
  | [] => (reg, none)
  | n :: rest =>
    match registerTask reg n impl with
    | .error e => (reg, some e)
    | .ok reg2 => registerNames reg2 rest impl

/-- Task-name canonicalization performed by `Pipeline.create`
(pipeline.py line 197): `task.lower().replace("-", "_")`. -/
def canonicalize (s : String) : String :=
  ⟨s.data.map fun c => if c = '-' then '_' else c.toLower⟩

/-- `str.lower()` as used by `_initialize_engine` and `Pipeline.__init__`. -/
def strLower (s : String) : String := ⟨s.data.map Char.toLower⟩

/-- The registry-resolution part of `Pipeline.create` (pipeline.py lines
197-213): canonicalizes the task name and looks it up, raising the
unknown-task error (whose payload lists the registered names) on a miss.
`SupportedTasks.check_register_task` is an external collaborator (lazy domain
registration, `deepsparse.tasks`, out of the modelled core) and adds nothing
to an explicitly populated registry. -/
def create (reg : Registry) (task : String) : Except PErr Impl :=
  let canonical := canonicalize task
  match alistLookup reg canonical with
  | none => .error (.unknownTask canonical (reg.map Prod.fst))
  | some impl => .ok impl

/-! ### Registry lemmas -/

theorem alistLookup_alistSet_self {β : Type} (l : List (String × β)) (k : String)
    (v : β) : alistLookup (alistSet l k v) k = some v := by
  induction l with
  | nil => simp [alistSet, alistLookup]
  | cons p rest ih =>
    by_cases h : p.1 = k
    · simp [alistSet, h, alistLookup]
    · simp [alistSet, h, alistLookup, ih]

theorem alistLookup_alistSet_ne {β : Type} (l : List (String × β)) {k m : String}
    (v : β) (hne : k ≠ m) : alistLookup (alistSet l k v) m = alistLookup l m := by
  induction l with
  | nil => simp [alistSet, alistLookup, hne]
  | cons p rest ih =>
    by_cases h : p.1 = k
    · simp [alistSet, h, alistLookup, hne]
    · simp [alistSet, h, alistLookup, ih]

theorem alistSet_lookup_self {β : Type} {l : List (String × β)} {k : String}
    {v : β} (h : alistLookup l k = some v) : alistSet l k v = l := by
  induction l with
  | nil => simp [alistLookup] at h
  | cons p rest ih =>
    obtain ⟨pk, pv⟩ := p
    by_cases hk : pk = k
    · subst hk
      simp [alistLookup] at h
      simp [alistSet, h]
    · simp [alistLookup, hk] at h
      simp [alistSet, hk, ih h]

theorem registerTask_ok_eq {reg reg2 : Registry} {n : String} {impl : Impl}
    (h : registerTask reg n impl = .ok reg2) : reg2 = alistSet reg n impl := by
  unfold registerTask at h
  split at h
  next existing heq =>
    split at h
    · injection h with h; exact h.symm
    · simp at h
  next heq => injection h with h; exact h.symm


theorem registerTask_ok_lookup {reg reg2 : Registry} {n : String} {impl : Impl}
    (h : registerTask reg n impl = .ok reg2) : alistLookup reg2 n = some impl := by
  rw [registerTask_ok_eq h]; exact alistLookup_alistSet_self reg n impl

theorem registerTask_ok_preserves {reg reg2 : Registry} {n m : String} {impl : Impl}
    (h : registerTask reg n impl = .ok reg2)
    (hm : alistLookup reg m = some impl) : alistLookup reg2 m = some impl := by
  by_cases hnm : n = m
  · subst hnm; exact registerTask_ok_lookup h
  · rw [registerTask_ok_eq h, alistLookup_alistSet_ne reg impl hnm]; exact hm

theorem registerNames_ok_preserves {names : List String} {reg reg2 : Registry}
    {impl : Impl} {m : String}
    (h : registerNames reg names impl = (reg2, none))
    (hm : alistLookup reg m = some impl) : alistLookup reg2 m = some impl := by
  induction names generalizing reg with
  | nil =>
    rw [registerNames] at h
    injection h with h1 h2
    exact h1 ▸ hm
  | cons n rest ih =>
    rw [registerNames] at h
    split at h
    next e' hr => simp at h
    next regm hr => exact ih h (registerTask_ok_preserves hr hm)

theorem registerNames_ok_mem {names : List String} {reg reg2 : Registry}
    {impl : Impl}
    (h : registerNames reg names impl = (reg2, none)) :
    ∀ n ∈ names, alistLookup reg2 n = some impl := by
  induction names generalizing reg with
  | nil => intro n hn; simp at hn
  | cons n rest ih =>
    rw [registerNames] at h
    split at h
    next e' hr => simp at h
    next regm hr =>
      intro m hm
      rcases List.mem_cons.mp hm with rfl | hm
      · exact registerNames_ok_preserves h (registerTask_ok_lookup hr)
      · exact ih h m hm

/-! ### Theorems for claims about the task registry (C2, C5, C10) -/

/-- C2: registering task `T` bound to implementation `A` when `T` is already
bound to `A` succeeds and leaves the registry unchanged (idempotent no-op),
while registering `T` bound to a different implementation `B` fails with the
registration-conflict error. -/
theorem register_same_idempotent_diff_conflicts (reg : Registry) (T : String)
    (A B : Impl) (h : alistLookup reg T = some A) (hne : A ≠ B) :
    registerTask reg T A = .ok reg ∧
    registerTask reg T B = .error (.registrationConflict T) := by
  constructor
  · simp [registerTask, h, alistSet_lookup_self h]
  · simp [registerTask, h, hne]

/-- Witness for C2 at a concrete registry. -/
theorem register_same_idempotent_diff_conflicts_witness :
    alistLookup [("qa", 3)] "qa" = some 3 ∧ 3 ≠ 4 ∧
    (registerTask [("qa", 3)] "qa" 3 = .ok [("qa", 3)] ∧
     registerTask [("qa", 3)] "qa" 4 = .error (.registrationConflict "qa")) :=
  ⟨by decide, by decide,
   register_same_idempotent_diff_conflicts [("qa", 3)] "qa" 3 4 (by decide) (by decide)⟩

/-- C5 counterexample: registration stores the task name verbatim (no
canonicalization), while `create` canonicalizes before looking up.  Registering
an implementation under `"Question-Answering"` succeeds and binds that exact
string, but creating a pipeline with the very same name (a case/hyphen variant
of itself) fails with the unknown-task error instead of resolving to that
implementation. -/
theorem register_create_canonicalization_diverge :
    registerNames [] ["Question-Answering"] 7 = ([("Question-Answering", 7)], none) ∧
    create [("Question-Answering", 7)] "Question-Answering" =
      .error (.unknownTask "question_answering" ["Question-Answering"]) ∧
    create [("Question-Answering", 7)] "Question-Answering" ≠ .ok 7 :=
  ⟨by decide, rfl, fun h => Except.noConfusion (rfl.trans h)⟩

/-- C5 amended: canonicalization (lowercase, hyphens to underscores) is applied
only at factory-lookup time; registration binds names verbatim.  Consequently a
task-name variant `V` resolves through `create` to the implementation
registered under `N` exactly when `canonicalize V = N`; in particular, when `N`
is already canonical, every case/hyphen variant of `N` resolves to it. -/
theorem create_resolves_canonical_variants (reg reg' : Registry) (N V : String)
    (impl : Impl) (hreg : registerTask reg N impl = .ok reg')
    (hvar : canonicalize V = N) :
    create reg' V = .ok impl := by
  simp [create, hvar, registerTask_ok_lookup hreg]

/-- Witness for the amended C5 at a concrete registration. -/
theorem create_resolves_canonical_variants_witness :
    registerTask [] "question_answering" 3 = .ok [("question_answering", 3)] ∧
    canonicalize "Question-Answering" = "question_answering" ∧
    create [("question_answering", 3)] "Question-Answering" = .ok 3 :=
  ⟨rfl, by decide,
   create_resolves_canonical_variants [] [("question_answering", 3)]
     "question_answering" "Question-Answering" 3 rfl (by decide)⟩

/-- C10: registering a canonical name together with its aliases is not atomic:
names are bound one at a time in list order, so when the loop fails at the
`k`-th name, the registry reached at the failure point has every earlier name
bound to the new implementation even though the registration as a whole
failed. -/
theorem register_partial_mutation (reg reg' : Registry) (names : List String)
    (impl : Impl) (e : PErr)
    (h : registerNames reg names impl = (reg', some e)) :
    ∃ k, ∃ hk : k < names.length,
      registerNames reg (names.take k) impl = (reg', none) ∧
      registerTask reg' (names.get ⟨k, hk⟩) impl = .error e ∧
      ∀ n ∈ names.take k, alistLookup reg' n = some impl := by
  induction names generalizing reg with
  | nil => simp [registerNames] at h
  | cons n rest ih =>
    rw [registerNames] at h
    split at h
    next e' hr =>
      injection h with h1 h2
      injection h2 with h2
      subst h1; subst h2
      exact ⟨0, by simp, by simp [registerNames], by simpa using hr, by simp⟩
    next regm hr =>
      obtain ⟨k, hk, h1, h2, h3⟩ := ih regm h
      refine ⟨k + 1, by simpa using Nat.succ_lt_succ hk, ?_, ?_, ?_⟩
      · rw [List.take_succ_cons, registerNames]
        split
        next e' hr2 => rw [hr2] at hr; simp at hr
        next regm2 hr2 =>
          rw [hr2] at hr
          injection hr with hr
          exact hr ▸ h1
      · simpa using h2
      · intro m hm
        rw [List.take_succ_cons, List.mem_cons] at hm
        rcases hm with rfl | hm
        · exact registerNames_ok_preserves h1 (registerTask_ok_lookup hr)
        · exact h3 m hm

/-- Witness for C10: registering `["a", "b"]` over a registry where `"b"` is
already bound to a different implementation fails on `"b"` but leaves `"a"`
bound to the new implementation. -/
theorem register_partial_mutation_witness :
    registerNames [("b", 1)] ["a", "b"] 0 =
      ([("b", 1), ("a", 0)], some (.registrationConflict "b")) ∧
    (∃ k, ∃ hk : k < (["a", "b"] : List String).length,
      registerNames [("b", 1)] ((["a", "b"] : List String).take k) 0 =
        ([("b", 1), ("a", 0)], none) ∧
      registerTask [("b", 1), ("a", 0)] ((["a", "b"] : List String).get ⟨k, hk⟩) 0 =
        .error (.registrationConflict "b") ∧
      ∀ n ∈ (["a", "b"] : List String).take k,
        alistLookup [("b", 1), ("a", 0)] n = some 0) :=
  ⟨by decide, register_partial_mutation [("b", 1)] [("b", 1), ("a", 0)]
    ["a", "b"] 0 (.registrationConflict "b") (by decide)⟩

/-! ### Route binder (server/main.py) -/

/-- The routing-relevant data of one entry of `load_pipelines_definitions`:
each pipeline definition carries its config, of which only the task name and
the optional `alias` field decide the HTTP path (`server/main.py` lines
126-139).  The config field is called `alias`; it is named `aliasName` here
because `alias` is a reserved word in Lean. -/
structure PipelineDef where
  task : String
  aliasName : Option String
deriving DecidableEq, Repr

/-- Python truthiness of the optional `alias` config field
(`if pipeline_def.config.alias:`): `None` and the empty string are falsy. -/
def aliasTruthy : Option String → Bool
  | none => false
  | some s => s != ""

/-- `_add_pipeline_route` (server/main.py lines 126-139): computes the path of
one pipeline and the updated `defined_tasks` set (modelled as a list consulted
only through membership), raising the path-collision error when a second
un-aliased pipeline claims an already-claimed task path. -/
def addPipelineRoute (numModels : Nat) (definedTasks : List String)
    (pd : PipelineDef) : Except PErr (String × List String) :=
  if aliasTruthy pd.aliasName then
    .ok ("/predict/" ++ pd.aliasName.getD "", definedTasks)
  else if 1 < numModels then
    if pd.task ∈ definedTasks then
      .error (.pathCollision pd.task)
    else
      .ok ("/predict/" ++ pd.task, pd.task :: definedTasks)
  else
    .ok ("/predict", definedTasks)

/-- The route-binding loop of `server_app_factory` (server/main.py lines
172-175): `defined_tasks = set()` then `_add_pipeline_route` per pipeline
definition, threading the set; an exception aborts the loop.  Returns the
bound paths in iteration order. -/
def addRoutesLoop (numModels : Nat) (definedTasks : List String) :
    List PipelineDef → Except PErr (List String)
  | [] => .ok []
  | pd :: rest =>
    match addPipelineRoute numModels definedTasks pd with
    | .error e => .error e
    | .ok (path, dt) =>
      match addRoutesLoop numModels dt rest with
      | .error e => .error e
      | .ok paths => .ok (path :: paths)

/-- `server_app_factory` binds routes with `num_tasks = len(config.models)`
(one pipeline definition per configured model) and an empty task set. -/
def serverBindRoutes (pds : List PipelineDef) : Except PErr (List String) :=
  addRoutesLoop pds.length [] pds

/-- An instance counts as un-aliased when its alias is null or empty
(amended claim wording). -/
def unaliased (pd : PipelineDef) : Bool := !aliasTruthy pd.aliasName

/-- Reference formulation following the amended claim wording: the path of one
instance is determined positionally from the total number of instances and the
instances appearing strictly earlier in iteration order — a non-empty alias
gives `/predict/{alias}`; otherwise, with exactly one instance total, the path
is `/predict`; otherwise the instance gets `/predict/{task}` unless an earlier
un-aliased instance has the same task, which is a path collision. -/
def specPathAt (total : Nat) (seen : List PipelineDef) (pd : PipelineDef) :
    Except PErr String :=
  if aliasTruthy pd.aliasName then .ok ("/predict/" ++ pd.aliasName.getD "")
  else if total = 1 then .ok "/predict"
  else if pd.task ∈ (seen.filter unaliased).map PipelineDef.task then
    .error (.pathCollision pd.task)
  else .ok ("/predict/" ++ pd.task)

/-- Reference binding of a whole collection, per instance via `specPathAt`. -/
def specRoutes (total : Nat) (seen : List PipelineDef) :
    List PipelineDef → Except PErr (List String)
  | [] => .ok []
  | pd :: rest =>
    match specPathAt total seen pd with
    | .error e => .error e
    | .ok path =>
      match specRoutes total (seen ++ [pd]) rest with
      | .error e => .error e
      | .ok paths => .ok (path :: paths)

/-- Reference route binding of the amended claim. -/
def specBindRoutes (pds : List PipelineDef) : Except PErr (List String) :=
  specRoutes pds.length [] pds

theorem addRoutesLoop_eq_specRoutes (rest : List PipelineDef) (total : Nat)
    (seen : List PipelineDef) (dt : List String) (htotal : 1 ≤ total)
    (hdt : 1 < total →
      ∀ t, t ∈ dt ↔ t ∈ (seen.filter unaliased).map PipelineDef.task) :
    addRoutesLoop total dt rest = specRoutes total seen rest := by
  induction rest generalizing seen dt with
  | nil => rfl
  | cons pd rest ih =>
    rw [addRoutesLoop, specRoutes]
    by_cases ha : aliasTruthy pd.aliasName
    · have hstep : addPipelineRoute total dt pd =
          .ok ("/predict/" ++ pd.aliasName.getD "", dt) := by
        simp [addPipelineRoute, ha]
      have hspec : specPathAt total seen pd =
          .ok ("/predict/" ++ pd.aliasName.getD "") := by
        simp [specPathAt, ha]
      have hseen : (seen ++ [pd]).filter unaliased = seen.filter unaliased := by
        simp [List.filter_append, unaliased, ha]
      simp only [hstep, hspec]
      rw [ih (seen ++ [pd]) dt (fun hm t => by rw [hseen]; exact hdt hm t)]
    · by_cases hm : 1 < total
      · have htot1 : total ≠ 1 := by omega
        have hseen : ((seen ++ [pd]).filter unaliased).map PipelineDef.task =
            (seen.filter unaliased).map PipelineDef.task ++ [pd.task] := by
          simp [List.filter_append, unaliased, ha]
        by_cases hcol : pd.task ∈ dt
        · have hcol2 : pd.task ∈ (seen.filter unaliased).map PipelineDef.task :=
            (hdt hm pd.task).mp hcol
          have hstep : addPipelineRoute total dt pd =
              .error (.pathCollision pd.task) := by
            simp [addPipelineRoute, ha, hm, hcol]
          have hspec : specPathAt total seen pd =
              .error (.pathCollision pd.task) := by
            simp [specPathAt, ha, htot1, hcol2]
          simp only [hstep, hspec]
        · have hcol2 : pd.task ∉ (seen.filter unaliased).map PipelineDef.task :=
            fun hc => hcol ((hdt hm pd.task).mpr hc)
          have hstep : addPipelineRoute total dt pd =
              .ok ("/predict/" ++ pd.task, pd.task :: dt) := by
            simp [addPipelineRoute, ha, hm, hcol]
          have hspec : specPathAt total seen pd =
              .ok ("/predict/" ++ pd.task) := by
            simp [specPathAt, ha, htot1, hcol2]
          simp only [hstep, hspec]
          rw [ih (seen ++ [pd]) (pd.task :: dt) (fun _ t => by
            rw [hseen]
            simp only [List.mem_cons, List.mem_append, List.mem_singleton,
              hdt hm t]
            tauto)]
      · have htot1 : total = 1 := by omega
        subst htot1
        have hstep : addPipelineRoute 1 dt pd = .ok ("/predict", dt) := by
          simp [addPipelineRoute, ha]
        have hspec : specPathAt 1 seen pd = .ok "/predict" := by
          simp [specPathAt, ha]
        simp only [hstep, hspec]
        rw [ih (seen ++ [pd]) dt (fun hc => absurd hc (by omega))]

/-- C1 counterexample: the binder tests Python truthiness of `alias`, so an
instance whose alias is non-null but empty (`some ""`) is routed as if it were
un-aliased: as the only bound instance it receives the path `/predict`, not
`/predict/{alias}` (which would be `"/predict/"`). -/
theorem route_binder_empty_alias_counterexample :
    serverBindRoutes [⟨"A", some ""⟩] = .ok ["/predict"] ∧
    ("/predict" : String) ≠ "/predict/" ++ "" :=
  ⟨rfl, by decide⟩

/-- C1 amended: with "non-null alias" weakened to "non-empty alias" (null and
empty aliases both count as un-aliased), the route binder behaves exactly as
claimed: an instance with a non-empty alias gets `/predict/{alias}`; an
un-aliased instance gets `/predict` when exactly one instance total is bound
and `/predict/{task}` otherwise, but only the first un-aliased instance of a
given task in iteration order may claim `/predict/{task}`, a later un-aliased
instance of the same task failing with the path-collision error — stated as
equality with the positional reference formulation `specBindRoutes` — and in
particular binding tasks `[A, A, A]` with aliases `[null, "x", null]` yields
`/predict/A`, `/predict/x`, then fails on the third. -/
theorem route_binder_amended :
    (∀ pds : List PipelineDef, serverBindRoutes pds = specBindRoutes pds) ∧
    addPipelineRoute 3 [] ⟨"A", none⟩ = .ok ("/predict/A", ["A"]) ∧
    addPipelineRoute 3 ["A"] ⟨"A", some "x"⟩ = .ok ("/predict/x", ["A"]) ∧
    addPipelineRoute 3 ["A"] ⟨"A", none⟩ = .error (.pathCollision "A") ∧
    serverBindRoutes [⟨"A", none⟩, ⟨"A", some "x"⟩, ⟨"A", none⟩] =
      .error (.pathCollision "A") := by
  refine ⟨?_, rfl, rfl, rfl, rfl⟩
  intro pds
  cases pds with
  | nil => rfl
  | cons pd rest =>
    exact addRoutesLoop_eq_specRoutes (pd :: rest) (pd :: rest).length []
      [] (by simp) (fun _ t => by simp)

/-! ### Pipeline invocation contract (`Pipeline.__call__`, pipeline.py 139-164)

A task implementation supplies `input_model` / `output_model` (pydantic model
classes) and the `process_inputs` / `process_engine_outputs` hooks, plus the
engine handle.  `isinstance(x, model)` is embedded as a boolean membership
check over an abstract value universe `V`; `model(**kwargs)` (pydantic
construction from named arguments, which raises a validation error on bad
arguments) is embedded as a partial constructor. -/

/-- The capability set one pipeline instance carries into `__call__`:
membership test and named-argument constructor of `input_model`, the
`process_inputs` / `engine` / `process_engine_outputs` stages, and the
membership test of `output_model`.  `V` is the universe of pydantic values,
`T` the type of engine tensors. -/
structure PipelineImpl (V T : Type) where
  input_model_check : V → Bool
  input_model_build : List (String × V) → Option V
  process_inputs : V → List T
  engine : List T → List T
  process_engine_outputs : List T → V
  output_model_check : V → Bool

/-- Outcome of one `__call__`: the returned value or raised error, the
validated input handed to `process_inputs` (`none` when preprocessing never
ran), and whether the engine forward pass ran. -/
structure CallResult (V : Type) where
  result : Except PErr V
  preprocessInput : Option V
  engineRan : Bool

/-- The input-resolution step of `__call__` (pipeline.py lines 140-142):
`if pipeline_inputs is None and kwargs: pipeline_inputs =
self.input_model(**kwargs)`, where pydantic construction from unusable named
arguments raises a validation error. -/
def resolve_inputs {V T : Type} (p : PipelineImpl V T) (pipeline_inputs : Option V)
    (kwargs : List (String × V)) : Except PErr (Option V) :=
  if pipeline_inputs.isNone && !kwargs.isEmpty then
    match p.input_model_build kwargs with
    | some v => .ok (some v)
    | none => .error .inputValidation
  else .ok pipeline_inputs

/-- `Pipeline.__call__` (pipeline.py lines 139-164): resolve the input,
validate it against `input_model` (`isinstance(None, m)` is false), run
`process_inputs` → `engine` → `process_engine_outputs`, validate the output
against `output_model`. -/
def pipelineCall {V T : Type} (p : PipelineImpl V T) (pipeline_inputs : Option V)
    (kwargs : List (String × V)) : CallResult V :=
  match resolve_inputs p pipeline_inputs kwargs with
  | .error e => ⟨.error e, none, false⟩
  | .ok none => ⟨.error .inputValidation, none, false⟩
  | .ok (some v) =>
    if p.input_model_check v then
      let engine_inputs := p.process_inputs v
      let engine_outputs := p.engine engine_inputs
      let pipeline_outputs := p.process_engine_outputs engine_outputs
      if p.output_model_check pipeline_outputs then
        ⟨.ok pipeline_outputs, some v, true⟩
      else ⟨.error .outputValidation, some v, true⟩
    else ⟨.error .inputValidation, none, false⟩

/-- C3: an invocation whose input — the positional value, or the value
constructed from named arguments — does not satisfy the declared input schema
fails with the input-validation error, and neither preprocessing nor the
engine forward pass runs. -/
theorem input_validation_blocks_engine {V T : Type} (p : PipelineImpl V T)
    (pipeline_inputs : Option V) (kwargs : List (String × V))
    (h : ∀ v, resolve_inputs p pipeline_inputs kwargs = .ok (some v) →
      p.input_model_check v = false) :
    pipelineCall p pipeline_inputs kwargs =
      ⟨.error .inputValidation, none, false⟩ := by
  cases hr : resolve_inputs p pipeline_inputs kwargs with
  | error e =>
    have he : e = .inputValidation := by
      rw [resolve_inputs] at hr
      split at hr
      · split at hr
        · simp at hr
        · injection hr with hr; exact hr.symm
      · simp at hr
    subst he
    simp [pipelineCall, hr]
  | ok vo =>
    cases vo with
    | none => simp [pipelineCall, hr]
    | some v => simp [pipelineCall, hr, h v hr]

/-- Witness for C3: a pipeline whose input schema rejects everything, invoked
with a positional value. -/
theorem input_validation_blocks_engine_witness :
    pipelineCall
      (⟨fun _ => false, fun _ => none, fun v => [v], id, fun _ => 0, fun _ => true⟩ :
        PipelineImpl Nat Nat) (some 5) [] =
      ⟨.error .inputValidation, none, false⟩ :=
  input_validation_blocks_engine _ (some 5) [] (fun _ _ => rfl)

/-- C4: an invocation that returns normally returns a value satisfying the
declared output schema; when postprocessing produces a non-conforming value
the invocation fails with the output-validation error instead of returning
it. -/
theorem output_schema_enforced {V T : Type} (p : PipelineImpl V T)
    (pipeline_inputs : Option V) (kwargs : List (String × V)) :
    (∀ v res, pipelineCall p pipeline_inputs kwargs = res → res.result = .ok v →
      p.output_model_check v = true) ∧
    (∀ v, resolve_inputs p pipeline_inputs kwargs = .ok (some v) →
      p.input_model_check v = true →
      p.output_model_check (p.process_engine_outputs (p.engine (p.process_inputs v))) = false →
      (pipelineCall p pipeline_inputs kwargs).result = .error .outputValidation) := by
  constructor
  · intro v res hres hok
    subst hres
    cases hr : resolve_inputs p pipeline_inputs kwargs with
    | error e => simp [pipelineCall, hr] at hok
    | ok vo =>
      cases vo with
      | none => simp [pipelineCall, hr] at hok
      | some w =>
        by_cases hc : p.input_model_check w
        · by_cases ho : p.output_model_check
              (p.process_engine_outputs (p.engine (p.process_inputs w)))
          · simp [pipelineCall, hr, hc, ho] at hok
            rw [← hok]; exact ho
          · simp [pipelineCall, hr, hc, ho] at hok
        · simp [pipelineCall, hr, hc] at hok
  · intro v hres hc ho
    simp [pipelineCall, hres, hc, ho]

/-- Witness for C4: a pipeline whose postprocessing returns a value the output
schema rejects fails with the output-validation error. -/
theorem output_schema_enforced_witness :
    (pipelineCall
      (⟨fun _ => true, fun _ => none, fun v => [v], id, fun _ => 0, fun _ => false⟩ :
        PipelineImpl Nat Nat) (some 5) []).result = .error .outputValidation :=
  (output_schema_enforced _ (some 5) []).2 5 rfl rfl rfl

/-- C9: when a non-null typed input value is passed positionally, any
additionally supplied named arguments are silently ignored: the call result —
including the value handed to preprocessing and whether the engine ran — is
the one obtained with no named arguments at all, and no error is raised for
the extras. -/
theorem positional_input_ignores_kwargs {V T : Type} (p : PipelineImpl V T)
    (v : V) (kwargs : List (String × V)) :
    pipelineCall p (some v) kwargs = pipelineCall p (some v) [] := by
  have h1 : resolve_inputs p (some v) kwargs = .ok (some v) := by
    simp [resolve_inputs]
  have h2 : resolve_inputs p (some v) [] = .ok (some v) := by
    simp [resolve_inputs]
  simp [pipelineCall, h1, h2]

/-! ### Config model (`PipelineConfig`, pipeline.py 411-470)

The config serializes through pydantic's json codec.  The textual layer
(JSON text ↔ JSON tree) is the external json library; the serialization is
embedded at the level of structured JSON trees. -/

/-- Structured JSON values: the external textual serialization format of the
config model, abstracted at the level of parsed JSON trees. -/
inductive JVal where
  | null
  | jbool (b : Bool)
  | jint (n : Int)
  | jstr (s : String)
  | jarr (xs : List JVal)
  | jobj (fields : List (String × JVal))

/-- The field set of `PipelineConfig` (pipeline.py lines 420-470) with its
declared defaults: `task` and `model_path` required; `engine_type` defaults to
the deepsparse engine; `batch_size` to 1; `num_cores` to `None`; `scheduler`
to `"async"`; `input_shapes` and `alias` to `None`; `kwargs` to `{}`.  The
`alias` field is named `aliasName` because `alias` is a reserved word in
Lean. -/
structure PipelineConfig where
  task : String
  model_path : String
  engine_type : String
  batch_size : Int
  num_cores : Option Int
  scheduler : String
  input_shapes : Option (List (List Int))
  aliasName : Option String
  kwargs : List (String × JVal)

/-- Read a required string field. -/
def asStr : JVal → Option String
  | .jstr s => some s
  | _ => none

/-- Read an integer field. -/
def asInt : JVal → Option Int
  | .jint n => some n
  | _ => none

/-- Read an optional (nullable) integer field. -/
def asOptInt : JVal → Option (Option Int)
  | .null => some none
  | .jint n => some (some n)
  | _ => none

/-- Read an optional (nullable) string field. -/
def asOptStr : JVal → Option (Option String)
  | .null => some none
  | .jstr s => some (some s)
  | _ => none

/-- Validate a JSON array of integers element-wise. -/
def parseIntList : List JVal → Option (List Int)
  | [] => some []
  | j :: rest =>
    match asInt j with
    | none => none
    | some n =>
      match parseIntList rest with
      | none => none
      | some ns => some (n :: ns)

/-- Read one input shape (a JSON array of integers). -/
def asIntList : JVal → Option (List Int)
  | .jarr xs => parseIntList xs
  | _ => none

/-- Validate a JSON array of input shapes element-wise. -/
def parseShapeRows : List JVal → Option (List (List Int))
  | [] => some []
  | j :: rest =>
    match asIntList j with
    | none => none
    | some r =>
      match parseShapeRows rest with
      | none => none
      | some rs => some (r :: rs)

/-- Read the nullable `input_shapes` field (`List[List[int]]`, default None). -/
def asShapes : JVal → Option (Option (List (List Int)))
  | .null => some none
  | .jarr xs =>
    match parseShapeRows xs with
    | none => none
    | some rs => some (some rs)
  | _ => none

/-- Read the open `kwargs` mapping (`Dict[str, Any]`). -/
def asObj : JVal → Option (List (String × JVal))
  | .jobj fs => some fs
  | _ => none

/-- A field with a declared default: absent means the default, present must
validate. -/
def fieldWith {β : Type} (fields : List (String × JVal)) (key : String)
    (read : JVal → Option β) (dflt : β) : Option β :=
  match alistLookup fields key with
  | none => some dflt
  | some j => read j

/-- A required field: absent is a validation failure. -/
def fieldReq {β : Type} (fields : List (String × JVal)) (key : String)
    (read : JVal → Option β) : Option β :=
  match alistLookup fields key with
  | none => none
  | some j => read j

/-- Pydantic parsing of a JSON tree against the `PipelineConfig` field
declarations (pipeline.py lines 420-470): required/defaulted fields as
declared, `none` on validation failure.  No constraint beyond the field types
is declared — there is no `batch_size ≥ 1`, no non-emptiness and no
engine-name membership check. -/
def PipelineConfig.fromJson (j : JVal) : Option PipelineConfig :=
  match j with
  | .jobj fields =>
    (fieldReq fields "task" asStr).bind fun task =>
    (fieldReq fields "model_path" asStr).bind fun model_path =>
    (fieldWith fields "engine_type" asStr DEEPSPARSE_ENGINE).bind fun engine_type =>
    (fieldWith fields "batch_size" asInt 1).bind fun batch_size =>
    (fieldWith fields "num_cores" asOptInt none).bind fun num_cores =>
    (fieldWith fields "scheduler" asStr "async").bind fun scheduler =>
    (fieldWith fields "input_shapes" asShapes none).bind fun input_shapes =>
    (fieldWith fields "alias" asOptStr none).bind fun aliasName =>
    (fieldWith fields "kwargs" asObj []).bind fun kwargs =>
    some ⟨task, model_path, engine_type, batch_size, num_cores, scheduler,
      input_shapes, aliasName, kwargs⟩
  | _ => none

/-- Serialize a nullable integer field. -/
def optIntJson : Option Int → JVal
  | none => .null
  | some n => .jint n

/-- Serialize a nullable string field. -/
def optStrJson : Option String → JVal
  | none => .null
  | some s => .jstr s

/-- Serialize the nullable `input_shapes` field. -/
def shapesJson : Option (List (List Int)) → JVal
  | none => .null
  | some ss => .jarr (ss.map fun r => .jarr (r.map JVal.jint))

/-- Pydantic serialization of a `PipelineConfig` to its JSON tree: every
declared field is emitted, in declaration order. -/
def PipelineConfig.toJson (c : PipelineConfig) : JVal :=
  .jobj [("task", .jstr c.task), ("model_path", .jstr c.model_path),
    ("engine_type", .jstr c.engine_type), ("batch_size", .jint c.batch_size),
    ("num_cores", optIntJson c.num_cores), ("scheduler", .jstr c.scheduler),
    ("input_shapes", shapesJson c.input_shapes),
    ("alias", optStrJson c.aliasName), ("kwargs", .jobj c.kwargs)]

theorem parseIntList_map_jint (r : List Int) :
    parseIntList (r.map JVal.jint) = some r := by
  induction r with
  | nil => rfl
  | cons n rest ih => simp [parseIntList, asInt, ih]

theorem parseShapeRows_map (ss : List (List Int)) :
    parseShapeRows (ss.map fun r => JVal.jarr (r.map JVal.jint)) = some ss := by
  induction ss with
  | nil => rfl
  | cons r rest ih => simp [parseShapeRows, asIntList, parseIntList_map_jint, ih]

/-- C7: config serialization round-trips losslessly — parsing the
serialization of any config value yields a field-wise equal value; in
particular the config parsed from `{"task":"x","model_path":"m.onnx",
"batch_size":1}` (whose remaining fields take their declared defaults),
serialized and re-parsed, equals the original. -/
theorem config_roundtrip :
    (∀ c : PipelineConfig, PipelineConfig.fromJson (PipelineConfig.toJson c) = some c) ∧
    PipelineConfig.fromJson
        (.jobj [("task", .jstr "x"), ("model_path", .jstr "m.onnx"),
          ("batch_size", .jint 1)]) =
      some ⟨"x", "m.onnx", DEEPSPARSE_ENGINE, 1, none, "async", none, none, []⟩ ∧
    PipelineConfig.fromJson
        (PipelineConfig.toJson
          ⟨"x", "m.onnx", DEEPSPARSE_ENGINE, 1, none, "async", none, none, []⟩) =
      some ⟨"x", "m.onnx", DEEPSPARSE_ENGINE, 1, none, "async", none, none, []⟩ := by
  refine ⟨?_, rfl, rfl⟩
  intro c
  obtain ⟨task, model_path, engine_type, batch_size, num_cores, scheduler,
    input_shapes, aliasName, kwargs⟩ := c
  cases num_cores <;> cases input_shapes <;> cases aliasName <;>
    simp [PipelineConfig.toJson, PipelineConfig.fromJson, fieldWith, fieldReq,
      alistLookup, asStr, asInt, asOptInt, asOptStr, asShapes, asObj,
      optIntJson, optStrJson, shapesJson, parseShapeRows_map]

/-- C6 counterexample: the config model declares no validation constraints, so
a config with empty `task` and `model_path`, `batch_size = 0` and the
unsupported engine kind `"bogus"` parses successfully — no `batch_size ≥ 1`,
non-emptiness or engine-membership check runs at parse/validation time. -/
theorem config_validation_gap :
    PipelineConfig.fromJson
        (.jobj [("task", .jstr ""), ("model_path", .jstr ""),
          ("batch_size", .jint 0), ("engine_type", .jstr "bogus")]) =
      some ⟨"", "", "bogus", 0, none, "async", none, none, []⟩ ∧
    ¬(1 ≤ (0 : Int)) ∧ "bogus" ∉ SUPPORTED_PIPELINE_ENGINES :=
  ⟨rfl, by decide, by decide⟩

/-- The engine variant chosen by `_initialize_engine`. -/
inductive EngineChoice where
  | deepsparseEngine
  | ortEngine
deriving DecidableEq, Repr

/-- `Pipeline._initialize_engine` (pipeline.py lines 397-408): lowercases the
engine type, dispatches to the deepsparse or onnxruntime engine, and raises
the unsupported-engine error for any other value. -/
def initialize_engine (engine_type : String) : Except PErr EngineChoice :=
  let et := strLower engine_type
  if et = DEEPSPARSE_ENGINE then .ok .deepsparseEngine
  else if et = ORT_ENGINE then .ok .ortEngine
  else .error (.unsupportedEngine engine_type)

/-- C6 amended: config parsing validates only the declared field types
(required strings `task`/`model_path`, integer `batch_size`, ...) — it
enforces neither `batch_size ≥ 1`, nor non-emptiness, nor engine-kind
membership, as the parse of the bogus config shows; an engine kind that is
not (case-insensitively) the primary or fallback engine identifier fails with
the unsupported-engine error only at engine-construction time
(`_initialize_engine`), where supported kinds succeed. -/
theorem config_validation_amended :
    (∀ et : String, strLower et ∉ SUPPORTED_PIPELINE_ENGINES →
      initialize_engine et = .error (.unsupportedEngine et)) ∧
    (∀ et : String, strLower et ∈ SUPPORTED_PIPELINE_ENGINES →
      ∃ ec, initialize_engine et = .ok ec) ∧
    PipelineConfig.fromJson
        (.jobj [("task", .jstr ""), ("model_path", .jstr ""),
          ("batch_size", .jint 0), ("engine_type", .jstr "bogus")]) =
      some ⟨"", "", "bogus", 0, none, "async", none, none, []⟩ := by
  refine ⟨?_, ?_, rfl⟩
  · intro et h
    simp only [SUPPORTED_PIPELINE_ENGINES, List.mem_cons, List.mem_singleton,
      not_or] at h
    simp [initialize_engine, h.1, h.2]
  · intro et h
    simp only [SUPPORTED_PIPELINE_ENGINES, List.mem_cons, List.mem_singleton] at h
    rcases h with h | h | h
    · exact ⟨.deepsparseEngine, by simp [initialize_engine, h]⟩
    · exact ⟨.ortEngine, by
        simp [initialize_engine, h, ORT_ENGINE, DEEPSPARSE_ENGINE]⟩
    · simp at h

/-- Witness for the amended C6 at the concrete unsupported engine kind. -/
theorem config_validation_amended_witness :
    strLower "bogus" ∉ SUPPORTED_PIPELINE_ENGINES ∧
    initialize_engine "bogus" = .error (.unsupportedEngine "bogus") :=
  ⟨by decide, config_validation_amended.1 "bogus" (by decide)⟩

/-! ### `Pipeline.from_config` (pipeline.py 270-296) -/

/-- The three accepted forms of the `config` argument of
`Pipeline.from_config`: an already-parsed config object, a raw string, or a
`Path`.  A string argument carries, besides the raw string itself (consulted
by the `os.path.exists` check), the external json parser's result on its text
(`none` = malformed). -/
inductive ConfigSource where
  | cfgObj (c : PipelineConfig)
  | strArg (raw : String) (parsed : Option JVal)
  | pathArg (p : String)

/-- The config-resolution portion of `Pipeline.from_config` (pipeline.py lines
277-284); the subsequent `create` call is modelled separately.  The
filesystem is an association list from path to the parse result of the file's
content (`some none` = existing file with malformed content).  A `Path`, or a
string for which a file exists, is read with `parse_file` (a non-existent
`Path` raises the file-not-found error); any other string is handed to
`parse_raw` as literal content. -/
def from_config_resolve (files : List (String × Option JVal)) :
    ConfigSource → Except PErr PipelineConfig
  | .cfgObj c => .ok c
  | .pathArg p =>
    match alistLookup files p with
    | none => .error (.configMissingPath p)
    | some none => .error .configMalformed
    | some (some j) =>
      match PipelineConfig.fromJson j with
      | some c => .ok c
      | none => .error .configMalformed
  | .strArg raw parsed =>
    match alistLookup files raw with
    | some none => .error .configMalformed
    | some (some j) =>
      match PipelineConfig.fromJson j with
      | some c => .ok c
      | none => .error .configMalformed
    | none =>
      match parsed with
      | none => .error .configMalformed
      | some j =>
        match PipelineConfig.fromJson j with
        | some c => .ok c
        | none => .error .configMalformed

/-- C8 counterexample: a *string* naming a non-existent file is not reported
as a missing path — the existence check fails, so the string is handed to
`parse_raw` as literal content and the error is the malformed-content one. -/
theorem from_config_string_missing_path_counterexample :
    from_config_resolve [] (.strArg "no_such_file.json" none) =
      .error .configMalformed ∧
    PErr.configMalformed ≠ .configMissingPath "no_such_file.json" :=
  ⟨rfl, by decide⟩

/-- C8 amended: config parsing accepts a config object, a file path or a
literal string; a string is interpreted as a file path only when a file
exists at it, otherwise it is treated as literal content.  Only a `Path`
argument to a non-existent file yields the missing-path error; malformed
content — in an existing file, or in a literal string (including a string
naming a non-existent file) — yields the malformed-content error. -/
theorem from_config_error_cases (files : List (String × Option JVal))
    (p raw : String) (hp : alistLookup files p = none)
    (hraw : alistLookup files raw = none) :
    from_config_resolve files (.pathArg p) = .error (.configMissingPath p) ∧
    from_config_resolve files (.strArg raw none) = .error .configMalformed ∧
    (∀ q qj, alistLookup files q = some qj → qj = none →
      from_config_resolve files (.pathArg q) = .error .configMalformed ∧
      from_config_resolve files (.strArg q none) = .error .configMalformed) := by
  refine ⟨?_, ?_, ?_⟩
  · simp [from_config_resolve, hp]
  · simp [from_config_resolve, hraw]
  · intro q qj hq hqn
    subst hqn
    exact ⟨by simp [from_config_resolve, hq], by simp [from_config_resolve, hq]⟩

/-- Witness for the amended C8 on a concrete filesystem holding one malformed
config file. -/
theorem from_config_error_cases_witness :
    alistLookup [("cfg.json", (none : Option JVal))] "gone.json" = none ∧
    (from_config_resolve [("cfg.json", none)] (.pathArg "gone.json") =
        .error (.configMissingPath "gone.json") ∧
      from_config_resolve [("cfg.json", none)] (.strArg "gone.json" none) =
        .error .configMalformed ∧
      (∀ q qj, alistLookup [("cfg.json", (none : Option JVal))] q = some qj →
        qj = none →
        from_config_resolve [("cfg.json", none)] (.pathArg q) =
          .error .configMalformed ∧
        from_config_resolve [("cfg.json", none)] (.strArg q none) =
          .error .configMalformed)) :=
  ⟨rfl, from_config_error_cases [("cfg.json", none)] "gone.json" "gone.json" rfl rfl⟩

end DeepSparse
